import Mathlib

/-!
Shallow embedding of the livetunnel tunnel orchestrator (src/app.rs, src/main.rs).

The embedding models:
- the SHA-512 digest pipeline used for credentials (`sha2::Sha512`,
  `format!("{:x}", …)` over the 64-byte digest);
- the credential-collection loops `App::add_users` and the user loop inside
  `App::build_config`;
- the secure-mode credential gate at the top of `App::run`;
- port validation as performed by `CustomType::<u16>` (a `u16` parse);
- the pre-connection command runner in `App::new`;
- the `miniserve` invocation built in `App::run`;
- the monitoring loop of `App::run` and the shutdown sequence `App::close`,
  as step functions over per-iteration environment inputs, with the log
  warnings and blocking calls recorded as events.

Machine integers are modelled as `Nat` with explicit `% 2^w` where overflow
matters; fallible operations return `Option` or carry an explicit aborted flag
(a Rust `unwrap` panic is modelled as an aborted run).
-/

/-! ## SHA-512 (FIPS 180-4), as computed by the `sha2` crate -/

def w64 : Nat := 2 ^ 64

def rotr64 (x k : Nat) : Nat :=
  ((x >>> k) ||| (x <<< (64 - k))) % w64

def not64 (x : Nat) : Nat := x ^^^ (w64 - 1)

def add64 (l : List Nat) : Nat := (l.foldl (fun a b => a + b) 0) % w64

def ssig0 (x : Nat) : Nat := rotr64 x 1 ^^^ rotr64 x 8 ^^^ (x >>> 7)

def ssig1 (x : Nat) : Nat := rotr64 x 19 ^^^ rotr64 x 61 ^^^ (x >>> 6)

def bsig0 (x : Nat) : Nat := rotr64 x 28 ^^^ rotr64 x 34 ^^^ rotr64 x 39

def bsig1 (x : Nat) : Nat := rotr64 x 14 ^^^ rotr64 x 18 ^^^ rotr64 x 41

def chf (e f g : Nat) : Nat := (e &&& f) ^^^ (not64 e &&& g)

def majf (a b c : Nat) : Nat := (a &&& b) ^^^ (a &&& c) ^^^ (b &&& c)

/-- The 80 SHA-512 round constants (first 64 bits of the fractional parts of
the cube roots of the first 80 primes). -/
def K512 : List Nat :=
  [4794697086780616226, 8158064640168781261, 13096744586834688815, 16840607885511220156,
   4131703408338449720, 6480981068601479193, 10538285296894168987, 12329834152419229976,
   15566598209576043074, 1334009975649890238, 2608012711638119052, 6128411473006802146,
   8268148722764581231, 9286055187155687089, 11230858885718282805, 13951009754708518548,
   16472876342353939154, 17275323862435702243, 1135362057144423861, 2597628984639134821,
   3308224258029322869, 5365058923640841347, 6679025012923562964, 8573033837759648693,
   10970295158949994411, 12119686244451234320, 12683024718118986047, 13788192230050041572,
   14330467153632333762, 15395433587784984357, 489312712824947311, 1452737877330783856,
   2861767655752347644, 3322285676063803686, 5560940570517711597, 5996557281743188959,
   7280758554555802590, 8532644243296465576, 9350256976987008742, 10552545826968843579,
   11727347734174303076, 12113106623233404929, 14000437183269869457, 14369950271660146224,
   15101387698204529176, 15463397548674623760, 17586052441742319658, 1182934255886127544,
   1847814050463011016, 2177327727835720531, 2830643537854262169, 3796741975233480872,
   4115178125766777443, 5681478168544905931, 6601373596472566643, 7507060721942968483,
   8399075790359081724, 8693463985226723168, 9568029438360202098, 10144078919501101548,
   10430055236837252648, 11840083180663258601, 13761210420658862357, 14299343276471374635,
   14566680578165727644, 15097957966210449927, 16922976911328602910, 17689382322260857208,
   500013540394364858, 748580250866718886, 1242879168328830382, 1977374033974150939,
   2944078676154940804, 3659926193048069267, 4368137639120453308, 4836135668995329356,
   5532061633213252278, 6448918945643986474, 6902733635092675308, 7801388544844847127]

/-- The eight 64-bit working variables of the SHA-512 compression function. -/
structure Sha512St where
  a : Nat
  b : Nat
  c : Nat
  d : Nat
  e : Nat
  f : Nat
  g : Nat
  h : Nat
deriving DecidableEq

/-- SHA-512 initial hash value (fractional parts of square roots of the first
eight primes). -/
def initSt : Sha512St :=
  ⟨7640891576956012808, 13503953896175478587, 4354685564936845355, 11912009170470909681,
   5840696475078001361, 11170449401992604703, 2270897969802886507, 6620516959819538809⟩

/-- Big-endian 16-byte encoding of the message bit length. -/
def lenBe16 (n : Nat) : List Nat :=
  (List.range 16).map (fun i => (n >>> (8 * (15 - i))) % 256)

/-- SHA-512 padding: a 0x80 byte, zeros to 112 mod 128, then the bit length. -/
def padMsg (msg : List Nat) : List Nat :=
  let k := (128 + 112 - ((msg.length + 1) % 128)) % 128
  msg ++ [128] ++ List.replicate k 0 ++ lenBe16 (msg.length * 8)

/-- Split a byte list into 128-byte blocks. -/
def toBlocks (xs : List Nat) : List (List Nat) :=
  if h : xs = [] then []
  else xs.take 128 :: toBlocks (xs.drop 128)
termination_by xs.length
decreasing_by
  simp only [List.length_drop]
  have hp : 0 < xs.length := List.length_pos.mpr h
  omega

/-- Read the i-th big-endian 64-bit word of a block. -/
def word64At (b : List Nat) (i : Nat) : Nat :=
  (List.range 8).foldl (fun acc j => acc * 256 + b.getD (8 * i + j) 0) 0

/-- Next word of the message schedule, from the last 16 words. -/
def nextW (w : List Nat) : Nat :=
  let t := w.length
  add64 [ssig1 (w.getD (t - 2) 0), w.getD (t - 7) 0, ssig0 (w.getD (t - 15) 0), w.getD (t - 16) 0]

/-- Extend the message schedule by k words. -/
def extendW (w : List Nat) : Nat → List Nat
  | 0 => w
  | k + 1 => extendW (w ++ [nextW w]) k

/-- One SHA-512 round. -/
def roundStep (st : Sha512St) (kw : Nat × Nat) : Sha512St :=
  let t1 := add64 [st.h, bsig1 st.e, chf st.e st.f st.g, kw.1, kw.2]
  let t2 := add64 [bsig0 st.a, majf st.a st.b st.c]
  ⟨add64 [t1, t2], st.a, st.b, st.c, add64 [st.d, t1], st.e, st.f, st.g⟩

/-- Process one 128-byte block: 80 rounds, then add into the chaining state. -/
def processBlock (st : Sha512St) (block : List Nat) : Sha512St :=
  let w := extendW ((List.range 16).map (word64At block)) 64
  let st2 := (K512.zip w).foldl roundStep st
  ⟨add64 [st.a, st2.a], add64 [st.b, st2.b], add64 [st.c, st2.c], add64 [st.d, st2.d],
   add64 [st.e, st2.e], add64 [st.f, st2.f], add64 [st.g, st2.g], add64 [st.h, st2.h]⟩

/-- Big-endian bytes of a 64-bit word. -/
def wordBytes (w : Nat) : List Nat :=
  [(w >>> 56) % 256, (w >>> 48) % 256, (w >>> 40) % 256, (w >>> 32) % 256,
   (w >>> 24) % 256, (w >>> 16) % 256, (w >>> 8) % 256, w % 256]

/-- SHA-512 digest of a byte string: 64 bytes. -/
def sha512 (msg : List Nat) : List Nat :=
  let st := (toBlocks (padMsg msg)).foldl processBlock initSt
  wordBytes st.a ++ wordBytes st.b ++ wordBytes st.c ++ wordBytes st.d ++
  wordBytes st.e ++ wordBytes st.f ++ wordBytes st.g ++ wordBytes st.h

/-- Lowercase hex digit for a nibble, as produced by Rust `{:x}` formatting. -/
def hexDigit (n : Nat) : Char := Char.ofNat (if n < 10 then 48 + n else 87 + n)

/-- Two lowercase hex characters of one byte. -/
def byteHexChars (b : Nat) : List Char := [hexDigit ((b >>> 4) % 16), hexDigit (b % 16)]

/-- Lowercase hex string of a byte list, as `format!("{:x}", digest)` renders
a `sha2` digest. -/
def hexOfBytes (bs : List Nat) : String := String.mk ((bs.map byteHexChars).flatten)

/-- UTF-8 encoding of one character (Rust strings are UTF-8 byte sequences). -/
def utf8EncodeCharNat (c : Char) : List Nat :=
  let n := c.toNat
  if n < 128 then [n]
  else if n < 2048 then [192 ||| (n >>> 6), 128 ||| (n &&& 63)]
  else if n < 65536 then
    [224 ||| (n >>> 12), 128 ||| ((n >>> 6) &&& 63), 128 ||| (n &&& 63)]
  else
    [240 ||| (n >>> 18), 128 ||| ((n >>> 12) &&& 63), 128 ||| ((n >>> 6) &&& 63), 128 ||| (n &&& 63)]

/-- The UTF-8 bytes of a string, as `Hasher::update(password)` consumes them. -/
def strBytes (s : String) : List Nat := (s.toList.map utf8EncodeCharNat).flatten

/-- Hex-rendered SHA-512 digest of a string, exactly the value the source
stores for a collected password. -/
def sha512Hex (s : String) : String := hexOfBytes (sha512 (strBytes s))

/-- Lowercase-hex character test (digits and a-f). -/
def isLowerHexChar (c : Char) : Bool :=
  (48 ≤ c.toNat && c.toNat ≤ 57) || (97 ≤ c.toNat && c.toNat ≤ 102)

/-! ## Streaming hasher object (sha2 crate API as used by app.rs) -/

/-- A `sha2::Sha512` hasher: `update` appends bytes to the stream; `finalize`
digests all bytes fed since creation (or since the last reset). -/
structure Sha512Hasher where
  buf : List Nat
deriving DecidableEq

def Sha512Hasher.new : Sha512Hasher := ⟨[]⟩

def Sha512Hasher.updateStr (hs : Sha512Hasher) (s : String) : Sha512Hasher :=
  ⟨hs.buf ++ strBytes s⟩

/-- `format!("{:x}", hasher.finalize())` in `App::build_config`. -/
def Sha512Hasher.finalizeHex (hs : Sha512Hasher) : String :=
  hexOfBytes (sha512 hs.buf)

/-- `format!("{:x}", hasher.finalize_reset())` in `App::add_users`. -/
def Sha512Hasher.finalizeResetHex (hs : Sha512Hasher) : String × Sha512Hasher :=
  (hexOfBytes (sha512 hs.buf), ⟨[]⟩)

/-! ## Credential collection (App::add_users, App::build_config user loop) -/

/-- Loop body of `App::add_users`: one shared hasher threaded through the
iterations, `finalize_reset` after each password; each collected pair is
pushed to the back of the vector. `entries` is the sequence of
(username, plaintext password) pairs the operator types. -/
def addUsersGo (hs : Sha512Hasher) (acc : List (String × String)) :
    List (String × String) → List (String × String)
  | [] => acc
  | (user, password) :: rest =>
    let hs2 := hs.updateStr password
    let fr := hs2.finalizeResetHex
    addUsersGo fr.2 (acc ++ [(user, fr.1)]) rest

/-- `App::add_users`: collect (username, password) pairs, storing the
hex-rendered SHA-512 digest of each password. (The Rust loop body always runs
at least once; we model the entered pairs as a list.) -/
def add_users (entries : List (String × String)) : List (String × String) :=
  addUsersGo Sha512Hasher.new [] entries

/-- The user-collection loop inside `App::build_config`: a fresh hasher is
created on every iteration and `finalize` (without reset) is used. -/
def buildConfigUsers : List (String × String) → List (String × String)
  | [] => []
  | (user, password) :: rest =>
    let hs := Sha512Hasher.new.updateStr password
    (user, hs.finalizeHex) :: buildConfigUsers rest

/-- The secure-mode credential gate at the top of `App::run`: with `-s` set,
if the stored user list is empty the operator must enter users now; otherwise
the operator may confirm adding more, which are appended to the stored list.
Without `-s` the list is untouched. -/
def runUsersGate (secure : Bool) (existing : List (String × String))
    (wantAdd : Bool) (entries : List (String × String)) : List (String × String) :=
  if secure then
    if existing.isEmpty then add_users entries
    else if wantAdd then existing ++ add_users entries
    else existing
  else existing

/-- The spec's claimed invariant: no two stored credential pairs share a
username. -/
def uniqueUsernames (users : List (String × String)) : Prop :=
  (users.map Prod.fst).Nodup

/-! ## Config and port validation -/

/-- The persisted `Config` struct of app.rs. Ports are `u16` in Rust; here
`Nat` carrying the parse-time bound `< 65536`. -/
structure Config where
  before_commands : Option (List (String × String))
  after_commands : Option (List (String × String))
  host : String
  port : Option Nat
  username : Option String
  keyfile : Option String
  jump_hosts : Option (List String)
  local_port : Nat
  remote_port : Nat
  users : List (String × String)

/-- `str::parse::<u16>` as invoked by `CustomType::<u16>` in the wizard: an
optional leading plus sign, then decimal digits; values not representable in
16 bits are rejected (the prompt re-asks on error). -/
def parseU16 (s : String) : Option Nat :=
  let ds :=
    match s.toList with
    | '+' :: rest => rest
    | cs => cs
  if ds = [] then none
  else if ds.all (fun c => c.isDigit) then
    let v := ds.foldl (fun acc c => acc * 10 + (c.toNat - 48)) 0
    if v < 65536 then some v else none
  else none

/-- The two port prompts of `App::build_config`: both inputs must parse as
`u16` for the config to be built. -/
def buildConfigPorts (remoteInput localInput : String) : Option (Nat × Nat) :=
  match parseU16 remoteInput, parseU16 localInput with
  | some r, some l => some (r, l)
  | _, _ => none

/-! ## Pre-connection command runner (App::new) -/

/-- Outcome of one spawned pre-connection command, as the environment decides
it: `Command::output()` fails to launch, or the process exits with a code. -/
inductive CmdOutcome
  | launchFailure
  | exited (code : Nat)
deriving DecidableEq

/-- What the runner reports for one command: the two warning branches of the
loop in `App::new`, or the success message. -/
inductive CmdReport
  | warnLaunch
  | warnExitStatus
  | succeeded
deriving DecidableEq

/-- One iteration of the command loop: a launch error or a non-success exit
status is reported as a warning (and the loop continues via `continue`). -/
def runCommand : CmdOutcome → CmdReport
  | .launchFailure => .warnLaunch
  | .exited code => if code = 0 then .succeeded else .warnExitStatus

def reportIsWarning : CmdReport → Bool
  | .warnLaunch => true
  | .warnExitStatus => true
  | .succeeded => false

def outcomeFails : CmdOutcome → Bool
  | .launchFailure => true
  | .exited code => decide (code ≠ 0)

/-- Observable events of the setup phase of `App::new`: one report per
pre-connection command, then the SSH connect attempt. -/
inductive SetupEvent
  | commandReport (idx : Nat) (report : CmdReport)
  | connectAttempt
deriving DecidableEq

/-- The command loop, indexed from `i` (the enumerate index of the source). -/
def runCommandsFrom (i : Nat) : List CmdOutcome → List SetupEvent
  | [] => []
  | oc :: rest => .commandReport i (runCommand oc) :: runCommandsFrom (i + 1) rest

/-- Setup trace of `App::new`: every configured command is attempted in order
(each with the outcome the environment assigns it), and afterwards the SSH
connection attempt is made unconditionally. -/
def setupTrace (cmds : List (String × String)) (outcomes : List CmdOutcome) :
    List SetupEvent :=
  runCommandsFrom 0 ((cmds.zip outcomes).map Prod.snd) ++ [SetupEvent.connectAttempt]

/-! ## miniserve invocation (App::run) -/

inductive StreamMode
  | inheritStream
  | nullStream
deriving DecidableEq

/-- A `std::process::Command` as configured before `spawn()`. -/
structure SpawnedCommand where
  program : String
  args : List String
  stdinMode : StreamMode
  stdoutMode : StreamMode
  stderrMode : StreamMode
deriving DecidableEq

/-- The `-a` arguments added in secure mode: one `-a user:sha512:digest` pair
of argv entries per stored credential. -/
def authArgs (users : List (String × String)) : List String :=
  (users.map (fun u => ["-a", u.1 ++ ":sha512:" ++ u.2])).flatten

/-- The `miniserve` command built in `App::run`: stdio discarded, `-H`
(hidden files), `-i 127.0.0.1` (loopback), `-p` with the configured local
port, the `-a` credentials only when `-s` was given, then the served
directory. -/
def miniserveCommand (secure : Bool) (cfg : Config) (directory : String) :
    SpawnedCommand :=
  { program := "miniserve"
    stdinMode := .nullStream
    stdoutMode := .nullStream
    stderrMode := .nullStream
    args :=
      ["-H", "-i", "127.0.0.1", "-p", toString cfg.local_port]
      ++ (if secure then authArgs cfg.users else [])
      ++ [directory] }

/-! ## Monitoring loop (App::run) and shutdown (App::close)

The loop body is a step function over a per-iteration environment input:
whether `session.check()` succeeded, what `miniserve_handle.try_wait()`
returned, and whether the external CTRL-C handler stored the shared flag
before this iteration read it. -/

/-- Result of `miniserve_handle.try_wait()` on one iteration. -/
inductive PollResult
  | running
  | exitedWith (success : Bool)
  | pollFailure
deriving DecidableEq

structure IterInput where
  sessionOk : Bool
  poll : PollResult
  cancelSet : Bool
deriving DecidableEq

/-- Warnings the loop body can emit. -/
inductive MonitorEvent
  | warnForwardDied
  | warnServeExited
  | warnServeDied
deriving DecidableEq

structure StepResult where
  flagOut : Bool
  exits : Bool
  events : List MonitorEvent
deriving DecidableEq

/-- One iteration of the `loop` in `App::run`: (1) `session.check()`; on
error warn and store `should_end`; (2) `try_wait()` on miniserve: warn only
when it exited with a non-success status or polling failed; (3) read
`should_end` and return from the loop when it is set. -/
def monitorStep (flagIn : Bool) (inp : IterInput) : StepResult :=
  let flagExt := flagIn || inp.cancelSet
  let sessionEvents := if inp.sessionOk then [] else [MonitorEvent.warnForwardDied]
  let flagSession := if inp.sessionOk then flagExt else true
  let pollEvents :=
    match inp.poll with
    | .running => []
    | .exitedWith true => []
    | .exitedWith false => [MonitorEvent.warnServeExited]
    | .pollFailure => [MonitorEvent.warnServeDied]
  { flagOut := flagSession
    exits := flagSession
    events := sessionEvents ++ pollEvents }

/-- Run the monitoring loop over a finite prefix of environment inputs.
Returns the index of the iteration at which the loop returned, with all
events emitted up to and including that iteration, or `none` when the loop
is still running after the given inputs. -/
def runMonitor (flagIn : Bool) : List IterInput → Option (Nat × List MonitorEvent)
  | [] => none
  | inp :: rest =>
    let r := monitorStep flagIn inp
    if r.exits then some (0, r.events)
    else
      match runMonitor r.flagOut rest with
      | some jevs => some (jevs.1 + 1, r.events ++ jevs.2)
      | none => none

/-- Environment responses during `App::close`: whether `session.close()`
succeeds, whether `kill()` succeeds, whether `wait()` succeeds. -/
structure CloseEnv where
  sessionCloseOk : Bool
  killOk : Bool
  waitOk : Bool
deriving DecidableEq

/-- Observable events of `App::close`, in program order. -/
inductive CloseEvent
  | sessionCloseCall
  | serveKillCall
  | serveWaitCall
  | warnServeCloseFailed
  | serveClosedOk
  | closedDone
deriving DecidableEq

/-- `App::close`: first `session.close()` — its result is `unwrap`ped, so an
error panics and ends the run right there (modelled as completed = false).
Only then is miniserve killed (the `kill` result deliberately ignored) and
waited for; a `wait` error is logged as a warning, and the final completion
message is printed either way. -/
def closeRun (env : CloseEnv) : List CloseEvent × Bool :=
  if env.sessionCloseOk then
    ([CloseEvent.sessionCloseCall, CloseEvent.serveKillCall, CloseEvent.serveWaitCall]
      ++ (if env.waitOk then [CloseEvent.serveClosedOk] else [CloseEvent.warnServeCloseFailed])
      ++ [CloseEvent.closedDone], true)
  else ([CloseEvent.sessionCloseCall], false)

/-- Index of the first occurrence of an event in a close trace. -/
def firstIndexOf (tr : List CloseEvent) (e : CloseEvent) : Option Nat :=
  tr.findIdx? (fun x => decide (x = e))

/-- `occursBefore e1 e2 tr` holds when both events occur and the first
occurrence of `e1` is strictly earlier than that of `e2`. -/
def occursBefore (e1 e2 : CloseEvent) (tr : List CloseEvent) : Bool :=
  match firstIndexOf tr e1, firstIndexOf tr e2 with
  | some i, some j => decide (i < j)
  | _, _ => false

/-- A whole run from the monitoring loop through shutdown, as `main` drives
it: when the loop returns, `App::close` runs. -/
def fullRun (flagIn : Bool) (inps : List IterInput) (env : CloseEnv) :
    Option (List MonitorEvent × List CloseEvent × Bool) :=
  match runMonitor flagIn inps with
  | some jevs => some (jevs.2, (closeRun env).1, (closeRun env).2)
  | none => none

/-! ## Supporting lemmas -/

theorem monitorStep_exits_of_dead (flagIn : Bool) (inp : IterInput)
    (h : inp.sessionOk = false) : (monitorStep flagIn inp).exits = true := by
  rcases inp with ⟨s, p, c⟩
  simp only at h
  simp [monitorStep, h]

theorem closeRun_completed (env : CloseEnv) (h : env.sessionCloseOk = true) :
    (closeRun env).2 = true := by
  simp [closeRun, h]

/-! ## Claim C1 -/

/-- Claim C1, as stated, is false: in the shutdown sequence of `App::close`
the session is closed first and the served process is terminated afterwards.
Concretely, in the all-successful shutdown run the kill of miniserve occurs,
yet it does not occur before the session close — the session close occurs
before it. -/
theorem c1_counterexample :
    CloseEvent.serveKillCall ∈ (closeRun ⟨true, true, true⟩).1 ∧
    occursBefore CloseEvent.serveKillCall CloseEvent.sessionCloseCall
      (closeRun ⟨true, true, true⟩).1 = false := by
  decide

/-- Claim C1 (amended): during shutdown the remote session handle is closed
strictly before the served process is terminated and reaped — the resources
are released in the same order they were acquired, not in reverse. In every
close run in which the kill of miniserve happens at all, the session close
call occurs strictly before it. -/
theorem c1_session_close_precedes_termination (env : CloseEnv)
    (hk : CloseEvent.serveKillCall ∈ (closeRun env).1) :
    occursBefore CloseEvent.sessionCloseCall CloseEvent.serveKillCall
      (closeRun env).1 = true := by
  rcases env with ⟨s, k, w⟩
  revert hk
  cases s <;> cases k <;> cases w <;> decide

/-- Witness for C1 (amended) at the all-successful close environment. -/
theorem c1_witness :
    occursBefore CloseEvent.sessionCloseCall CloseEvent.serveKillCall
      (closeRun ⟨true, true, true⟩).1 = true :=
  c1_session_close_precedes_termination ⟨true, true, true⟩ (by decide)

/-! ## Claim C2 -/

/-- Claim C2, as stated, is false: `App::close` calls
`session.close()` followed by `.unwrap()`, so when the session close reports
an error the shutdown panics and aborts right there — the later steps
(killing and reaping miniserve) are never attempted and the run never
reaches the end of `close`. -/
theorem c2_counterexample :
    (closeRun ⟨false, true, true⟩).2 = false ∧
    CloseEvent.serveKillCall ∉ (closeRun ⟨false, true, true⟩).1 := by
  decide

/-- Claim C2 (amended): once the session close has succeeded, the remaining
shutdown steps are best-effort — miniserve is killed and waited for
unconditionally, a failure of the wait is logged as a warning rather than
aborting, and the shutdown sequence runs to completion; but a failure of the
session close itself panics and aborts the shutdown. -/
theorem c2_shutdown_best_effort_after_session_close (env : CloseEnv)
    (h : env.sessionCloseOk = true) :
    (closeRun env).2 = true ∧
    CloseEvent.serveKillCall ∈ (closeRun env).1 ∧
    CloseEvent.serveWaitCall ∈ (closeRun env).1 ∧
    (env.waitOk = false → CloseEvent.warnServeCloseFailed ∈ (closeRun env).1) := by
  rcases env with ⟨s, k, w⟩
  revert h
  cases s <;> cases k <;> cases w <;> decide

/-- Witness for C2 (amended): session close succeeds but the wait on
miniserve fails; shutdown still completes and the failure is logged. -/
theorem c2_witness :
    (closeRun ⟨true, true, false⟩).2 = true ∧
    CloseEvent.warnServeCloseFailed ∈ (closeRun ⟨true, true, false⟩).1 := by
  have h := c2_shutdown_best_effort_after_session_close ⟨true, true, false⟩ rfl
  exact ⟨h.1, h.2.2.2 rfl⟩

/-! ## Claim C6 -/

/-- Claim C6, as stated, is false: when miniserve is found to have exited
with a *success* status, the loop in `App::run` records no warning at all
(the warning branch is guarded by `!status.unwrap().success()`), so the
condition is not surfaced to the operator. -/
theorem c6_counterexample :
    (monitorStep false ⟨true, PollResult.exitedWith true, false⟩).events = [] ∧
    (monitorStep false ⟨true, PollResult.exitedWith true, false⟩).exits = false := by
  decide

/-- Claim C6 (amended): the poll result for the served process never causes
the loop to exit (whether the loop exits is decided only by the should-end
flag, an external cancel, and session liveness), and a warning is recorded
exactly when the process exited with a non-success status — a clean exit is
silent. -/
theorem c6_serve_exit_warning_only_on_failure (flagIn : Bool) (inp : IterInput) :
    (monitorStep flagIn inp).exits = (flagIn || inp.cancelSet || !inp.sessionOk) ∧
    (inp.poll = PollResult.exitedWith false →
      MonitorEvent.warnServeExited ∈ (monitorStep flagIn inp).events) ∧
    (inp.poll = PollResult.exitedWith true →
      MonitorEvent.warnServeExited ∉ (monitorStep flagIn inp).events) := by
  rcases inp with ⟨s, p, c⟩
  cases flagIn <;> cases s <;> cases c <;> rcases p with _ | b | _ <;> (try cases b) <;> decide

/-- Witness for C6 (amended): a non-success exit of miniserve is warned
about and the loop keeps monitoring. -/
theorem c6_witness :
    (monitorStep false ⟨true, PollResult.exitedWith false, false⟩).exits = false ∧
    MonitorEvent.warnServeExited ∈
      (monitorStep false ⟨true, PollResult.exitedWith false, false⟩).events := by
  have h := c6_serve_exit_warning_only_on_failure false ⟨true, PollResult.exitedWith false, false⟩
  exact ⟨h.1, h.2.1 rfl⟩

/-! ## Claim C3 -/

/-- Claim C3, as stated, is false on the "ultimately reaches the Closed
state" part: when the session liveness check fails, the loop does exit at
once and shutdown begins with no stop signal from the user — but `App::close`
then `unwrap`s `session.close()`, and when closing the (already dead)
session errors, the run panics and never completes the shutdown. -/
theorem c3_counterexample :
    fullRun false [⟨false, PollResult.running, false⟩] ⟨false, true, true⟩ =
      some ([MonitorEvent.warnForwardDied], [CloseEvent.sessionCloseCall], false) := by
  decide

/-- Claim C3 (amended): if `session.check()` fails on iteration `i` of the
monitoring loop, the loop returns at some iteration `j ≤ i` — within the
same polling interval, with no stop signal from the user required — and,
provided the session close call of the shutdown sequence succeeds, the whole
run completes the shutdown. -/
theorem c3_liveness_failure_triggers_shutdown (flagIn : Bool)
    (inps : List IterInput) (i : Nat) (hi : i < inps.length)
    (hdead : (inps.get ⟨i, hi⟩).sessionOk = false)
    (env : CloseEnv) (hclose : env.sessionCloseOk = true) :
    ∃ j mevs, j ≤ i ∧ runMonitor flagIn inps = some (j, mevs) ∧
      fullRun flagIn inps env = some (mevs, (closeRun env).1, true) := by
  induction inps generalizing flagIn i with
  | nil => exact absurd hi (by simp)
  | cons inp rest ih =>
    by_cases hex : (monitorStep flagIn inp).exits = true
    · refine ⟨0, (monitorStep flagIn inp).events, Nat.zero_le i, ?_, ?_⟩
      · simp [runMonitor, hex]
      · simp [fullRun, runMonitor, hex, closeRun_completed env hclose]
    · cases i with
      | zero =>
        exact absurd (monitorStep_exits_of_dead flagIn inp (by simpa using hdead)) hex
      | succ k =>
        have hk : k < rest.length := by simpa using hi
        have hdead2 : (rest.get ⟨k, hk⟩).sessionOk = false := by simpa using hdead
        obtain ⟨j, mevs, hj, hrun, _⟩ :=
          ih ((monitorStep flagIn inp).flagOut) k hk hdead2
        refine ⟨j + 1, (monitorStep flagIn inp).events ++ mevs, by omega, ?_, ?_⟩
        · simp [runMonitor, hex, hrun]
        · simp [fullRun, runMonitor, hex, hrun, closeRun_completed env hclose]

/-- Witness for C3 (amended): session dies on the first iteration, the user
never presses CTRL-C, session close succeeds; the loop exits immediately and
the run completes shutdown. -/
theorem c3_witness :
    ∃ j mevs, j ≤ 0 ∧
      runMonitor false [⟨false, PollResult.running, false⟩] = some (j, mevs) ∧
      fullRun false [⟨false, PollResult.running, false⟩] ⟨true, true, true⟩ =
        some (mevs, (closeRun ⟨true, true, true⟩).1, true) :=
  c3_liveness_failure_triggers_shutdown false [⟨false, PollResult.running, false⟩]
    0 (by decide) (by decide) ⟨true, true, true⟩ rfl

/-! ## Claim C4 -/

theorem parseU16_bound (s : String) (n : Nat) (h : parseU16 s = some n) :
    n < 65536 := by
  simp only [parseU16] at h
  split at h
  · cases h
  · split at h
    · split at h
      · next hv => cases h; exact hv
      · cases h
    · cases h

/-- Claim C4, as stated, is false: the wizard validates ports only as `u16`
values, and `0` parses as a valid `u16`, so a config whose local port is `0`
— outside the claimed range 1–65535 — is constructed without any validation
failure. -/
theorem c4_counterexample :
    buildConfigPorts "8080" "0" = some (8080, 0) ∧ ¬ (1 : Nat) ≤ 0 := by
  exact ⟨by decide, by decide⟩

/-- Claim C4 (amended): every pair of ports accepted by the wizard's port
prompts is a valid unsigned 16-bit value, i.e. lies in 0–65535; an input
above 65535 (or a negative one) fails `u16` validation, but `0` is
accepted. -/
theorem c4_ports_are_unsigned_16bit :
    (∀ rs ls r l, buildConfigPorts rs ls = some (r, l) → r ≤ 65535 ∧ l ≤ 65535) ∧
    parseU16 "65536" = none ∧ parseU16 "-1" = none := by
  refine ⟨?_, by decide, by decide⟩
  intro rs ls r l h
  simp only [buildConfigPorts] at h
  split at h
  · next hr hl =>
    cases h
    have h1 := parseU16_bound _ _ hr
    have h2 := parseU16_bound _ _ hl
    omega
  · cases h

/-- Witness for C4 (amended) at concrete accepted inputs. -/
theorem c4_witness : (8080 : Nat) ≤ 65535 ∧ (3000 : Nat) ≤ 65535 :=
  c4_ports_are_unsigned_16bit.1 "8080" "3000" 8080 3000 (by decide)

/-! ## Claim C5 -/

theorem addUsersGo_spec (entries acc : List (String × String)) :
    addUsersGo Sha512Hasher.new acc entries =
      acc ++ entries.map (fun p => (p.1, sha512Hex p.2)) := by
  induction entries generalizing acc with
  | nil => simp [addUsersGo]
  | cons e rest ih =>
    rcases e with ⟨u, pw⟩
    simp only [addUsersGo, Sha512Hasher.updateStr,
      Sha512Hasher.finalizeResetHex, List.map_cons]
    rw [show ({ buf := [] } : Sha512Hasher) = Sha512Hasher.new from rfl, ih]
    simp [Sha512Hasher.new, sha512Hex]

theorem add_users_spec (entries : List (String × String)) :
    add_users entries = entries.map (fun p => (p.1, sha512Hex p.2)) := by
  simpa using addUsersGo_spec entries []

theorem buildConfigUsers_spec (entries : List (String × String)) :
    buildConfigUsers entries = entries.map (fun p => (p.1, sha512Hex p.2)) := by
  induction entries with
  | nil => rfl
  | cons e rest ih =>
    rcases e with ⟨u, pw⟩
    simp [buildConfigUsers, Sha512Hasher.new, Sha512Hasher.updateStr,
      Sha512Hasher.finalizeHex, sha512Hex, ih]

theorem add_users_map_fst (entries : List (String × String)) :
    (add_users entries).map Prod.fst = entries.map Prod.fst := by
  rw [add_users_spec]
  induction entries with
  | nil => rfl
  | cons e rest ih => simp [ih]

/-- Claim C5, as stated, is false: neither `App::add_users` nor the append in
`App::run` checks usernames for uniqueness. Starting from a credential list
with the single username "alice" and confirming the add-users prompt with a
new entry also named "alice", the resulting stored list has two entries with
the same username. -/
theorem c5_counterexample :
    ¬ uniqueUsernames (runUsersGate true [("alice", "d0")] true [("alice", "pw")]) := by
  have h : (runUsersGate true [("alice", "d0")] true [("alice", "pw")]).map Prod.fst
      = ["alice", "alice"] := by
    simp [runUsersGate, add_users_map_fst]
  simp [uniqueUsernames, h]

/-- Claim C5 (amended): the operations that produce or extend the credential
list perform no uniqueness check at all — the usernames of the resulting
list are exactly the existing usernames followed by the newly entered
usernames, kept verbatim, so duplicate usernames can be stored. -/
theorem c5_usernames_kept_verbatim (existing : List (String × String))
    (wantAdd : Bool) (entries : List (String × String)) :
    (runUsersGate true existing wantAdd entries).map Prod.fst =
      if existing.isEmpty then entries.map Prod.fst
      else if wantAdd then existing.map Prod.fst ++ entries.map Prod.fst
      else existing.map Prod.fst := by
  cases wantAdd <;> by_cases he : existing.isEmpty <;>
    simp [runUsersGate, add_users_map_fst, he]

/-! ## Claim C7 -/

theorem runCommandsFrom_length (l : List CmdOutcome) (i : Nat) :
    (runCommandsFrom i l).length = l.length := by
  induction l generalizing i with
  | nil => rfl
  | cons oc rest ih => simp [runCommandsFrom, ih]

theorem runCommandsFrom_get (l : List CmdOutcome) (i k : Nat) (hk : k < l.length) :
    (runCommandsFrom i l).get? k =
      some (SetupEvent.commandReport (i + k) (runCommand (l.get ⟨k, hk⟩))) := by
  induction l generalizing i k with
  | nil => simp at hk
  | cons oc rest ih =>
    cases k with
    | zero => simp [runCommandsFrom]
    | succ k2 =>
      have hk2 : k2 < rest.length := by simpa using hk
      have harith : i + (k2 + 1) = (i + 1) + k2 := by omega
      rw [harith]
      simpa [runCommandsFrom] using ih (i + 1) k2 hk2

theorem zip_map_snd_of_length_eq (l1 : List (String × String)) (l2 : List CmdOutcome)
    (h : l2.length = l1.length) : (l1.zip l2).map Prod.snd = l2 := by
  induction l1 generalizing l2 with
  | nil =>
    cases l2 with
    | nil => rfl
    | cons b r2 => simp at h
  | cons a r1 ih =>
    cases l2 with
    | nil => simp at h
    | cons b r2 => simp [ih r2 (by simpa using h)]

/-- Claim C7 (confirmed): for every configured list of pre-connection
commands, with one environment-chosen outcome per command, the setup trace of
`App::new` contains exactly one report per command, in order — so every
command after a failing one is still attempted — a command's report is a
warning exactly when it failed to launch or exited non-zero, and the SSH
connect attempt follows the whole command list unconditionally. -/
theorem c7_precommand_failures_are_nonfatal (cmds : List (String × String))
    (outcomes : List CmdOutcome) (hlen : outcomes.length = cmds.length) :
    (setupTrace cmds outcomes).length = cmds.length + 1 ∧
    (∀ k (hk : k < outcomes.length),
      (setupTrace cmds outcomes).get? k =
        some (SetupEvent.commandReport k (runCommand (outcomes.get ⟨k, hk⟩)))) ∧
    (setupTrace cmds outcomes).get? cmds.length = some SetupEvent.connectAttempt ∧
    (∀ oc, reportIsWarning (runCommand oc) = outcomeFails oc) := by
  have hz : (cmds.zip outcomes).map Prod.snd = outcomes :=
    zip_map_snd_of_length_eq cmds outcomes hlen
  refine ⟨?_, ?_, ?_, ?_⟩
  · simp [setupTrace, hz, runCommandsFrom_length, hlen]
  · intro k hk
    rw [setupTrace, hz]
    rw [List.get?_append (by rw [runCommandsFrom_length]; exact hk)]
    simpa using runCommandsFrom_get outcomes 0 k hk
  · rw [setupTrace, hz]
    rw [List.get?_append_right (by rw [runCommandsFrom_length]; omega)]
    simp [runCommandsFrom_length, hlen]
  · intro oc
    cases oc with
    | launchFailure => rfl
    | exited code => by_cases hc : code = 0 <;>
        simp [runCommand, reportIsWarning, outcomeFails, hc]

/-- Witness for C7: three commands where the second exits with status 1; the
third command is still attempted and the connect attempt follows. -/
theorem c7_witness :
    (setupTrace [("a", ""), ("b", ""), ("c", "")]
      [CmdOutcome.exited 0, CmdOutcome.exited 1, CmdOutcome.exited 0]).get? 2 =
      some (SetupEvent.commandReport 2 (runCommand (CmdOutcome.exited 0))) ∧
    (setupTrace [("a", ""), ("b", ""), ("c", "")]
      [CmdOutcome.exited 0, CmdOutcome.exited 1, CmdOutcome.exited 0]).get? 3 =
      some SetupEvent.connectAttempt := by
  have h := c7_precommand_failures_are_nonfatal [("a", ""), ("b", ""), ("c", "")]
    [CmdOutcome.exited 0, CmdOutcome.exited 1, CmdOutcome.exited 0] rfl
  exact ⟨h.2.1 2 (by decide), h.2.2.1⟩

/-! ## Claim C8 -/

theorem authArgs_length (us : List (String × String)) :
    (authArgs us).length = 2 * us.length := by
  induction us with
  | nil => rfl
  | cons u rest ih => simp [authArgs] at *; omega

theorem authArgs_get (us : List (String × String)) (k : Nat) (hk : k < us.length) :
    (authArgs us).get? (2 * k) = some "-a" ∧
    (authArgs us).get? (2 * k + 1) =
      some ((us.get ⟨k, hk⟩).1 ++ ":sha512:" ++ (us.get ⟨k, hk⟩).2) := by
  induction us generalizing k with
  | nil => simp at hk
  | cons u rest ih =>
    cases k with
    | zero => simp [authArgs]
    | succ k2 =>
      have hk2 : k2 < rest.length := by simpa using hk
      constructor
      · rw [show 2 * (k2 + 1) = (2 * k2) + 1 + 1 by omega]
        simpa [authArgs] using (ih k2 hk2).1
      · rw [show 2 * (k2 + 1) + 1 = (2 * k2 + 1) + 1 + 1 by omega]
        simpa [authArgs] using (ih k2 hk2).2

theorem miniserve_args_drop5 (cfg : Config) (dir : String) :
    (miniserveCommand true cfg dir).args.drop 5 = authArgs cfg.users ++ [dir] := rfl

/-- Claim C8 (confirmed): the miniserve process is spawned with stdin,
stdout and stderr discarded, with `-H` (include hidden files), `-i
127.0.0.1` (bind to the loopback interface), `-p` with the configured local
port, then — in secure mode — exactly one `-a` argument per stored
credential pair, each carrying `username:sha512:digest` built from the
stored digest (the plaintext never occurs anywhere in the spawn), and
finally the served directory. -/
theorem c8_miniserve_invocation_contract (cfg : Config) (dir : String) :
    (miniserveCommand true cfg dir).program = "miniserve" ∧
    (miniserveCommand true cfg dir).stdinMode = StreamMode.nullStream ∧
    (miniserveCommand true cfg dir).stdoutMode = StreamMode.nullStream ∧
    (miniserveCommand true cfg dir).stderrMode = StreamMode.nullStream ∧
    (miniserveCommand true cfg dir).args.take 5 =
      ["-H", "-i", "127.0.0.1", "-p", toString cfg.local_port] ∧
    (miniserveCommand true cfg dir).args.length = 6 + 2 * cfg.users.length ∧
    (∀ k (hk : k < cfg.users.length),
      (miniserveCommand true cfg dir).args.get? (5 + 2 * k) = some "-a" ∧
      (miniserveCommand true cfg dir).args.get? (6 + 2 * k) =
        some ((cfg.users.get ⟨k, hk⟩).1 ++ ":sha512:" ++ (cfg.users.get ⟨k, hk⟩).2)) ∧
    (miniserveCommand true cfg dir).args.get? (5 + 2 * cfg.users.length) = some dir := by
  refine ⟨rfl, rfl, rfl, rfl, rfl, ?_, ?_, ?_⟩
  · simp [miniserveCommand, authArgs_length]
    omega
  · intro k hk
    constructor
    · rw [← List.get?_drop, miniserve_args_drop5]
      rw [List.get?_append (by rw [authArgs_length]; omega)]
      exact (authArgs_get cfg.users k hk).1
    · rw [show 6 + 2 * k = 5 + (2 * k + 1) by omega]
      rw [← List.get?_drop, miniserve_args_drop5]
      rw [List.get?_append (by rw [authArgs_length]; omega)]
      exact (authArgs_get cfg.users k hk).2
  · rw [← List.get?_drop, miniserve_args_drop5]
    rw [List.get?_append_right (by rw [authArgs_length])]
    simp [authArgs_length]

/-- Witness for C8 at a concrete config with one credential pair. -/
theorem c8_witness :
    (miniserveCommand true
      ⟨none, none, "host", none, none, none, none, 3000, 8080, [("u", "d")]⟩
      "/srv").args.get? 5 = some "-a" ∧
    (miniserveCommand true
      ⟨none, none, "host", none, none, none, none, 3000, 8080, [("u", "d")]⟩
      "/srv").args.get? 6 = some ("u" ++ ":sha512:" ++ "d") := by
  have h := c8_miniserve_invocation_contract
    ⟨none, none, "host", none, none, none, none, 3000, 8080, [("u", "d")]⟩ "/srv"
  exact ⟨(h.2.2.2.2.2.2.1 0 (by decide)).1, (h.2.2.2.2.2.2.1 0 (by decide)).2⟩

/-! ## Claim C9 -/

theorem sha512_length (msg : List Nat) : (sha512 msg).length = 64 := by
  simp [sha512, wordBytes]

theorem hexOfBytes_length (bs : List Nat) : (hexOfBytes bs).length = 2 * bs.length := by
  show ((bs.map byteHexChars).flatten).length = 2 * bs.length
  induction bs with
  | nil => rfl
  | cons b rest ih =>
    simp only [List.map_cons, List.flatten_cons, List.length_append, List.length_cons, ih,
      byteHexChars, List.length_nil]
    omega

theorem sha512Hex_length (s : String) : (sha512Hex s).length = 128 := by
  simp [sha512Hex, hexOfBytes_length, sha512_length]

theorem hexDigit_isLowerHex (n : Nat) (h : n < 16) : isLowerHexChar (hexDigit n) = true := by
  have hall : ∀ m : Fin 16, isLowerHexChar (hexDigit m.val) = true := by decide
  exact hall ⟨n, h⟩

theorem mem_hexOfBytes_isLowerHex (bs : List Nat) (c : Char)
    (hc : c ∈ (hexOfBytes bs).toList) : isLowerHexChar c = true := by
  have hc2 : c ∈ (bs.map byteHexChars).flatten := hc
  rw [List.mem_flatten] at hc2
  obtain ⟨cs, hcs, hcc⟩ := hc2
  rw [List.mem_map] at hcs
  obtain ⟨b, hb, rfl⟩ := hcs
  simp only [byteHexChars, List.mem_cons, List.not_mem_nil, or_false] at hcc
  rcases hcc with h1 | h2
  · subst h1; exact hexDigit_isLowerHex _ (Nat.mod_lt _ (by omega))
  · subst h2; exact hexDigit_isLowerHex _ (Nat.mod_lt _ (by omega))

/-- Claim C9 (confirmed): both credential-collection paths store, for every
entered (username, plaintext) pair, exactly the username together with the
hex-rendered SHA-512 digest of the plaintext — never the plaintext itself;
every stored digest is a fixed-length (128 lowercase hex characters) string;
and hashing is deterministic: two entries with the same plaintext password
receive the same stored digest, in `add_users` and `build_config` alike. -/
theorem c9_credentials_store_only_digests (entries : List (String × String)) :
    add_users entries = entries.map (fun p => (p.1, sha512Hex p.2)) ∧
    buildConfigUsers entries = entries.map (fun p => (p.1, sha512Hex p.2)) ∧
    (∀ p ∈ add_users entries, p.2.length = 128 ∧
      ∀ c ∈ p.2.toList, isLowerHexChar c = true) ∧
    (∀ i j (hi : i < entries.length) (hj : j < entries.length),
      (entries.get ⟨i, hi⟩).2 = (entries.get ⟨j, hj⟩).2 →
      (add_users entries).get? i =
        some ((entries.get ⟨i, hi⟩).1, sha512Hex (entries.get ⟨i, hi⟩).2) ∧
      (add_users entries).get? j =
        some ((entries.get ⟨j, hj⟩).1, sha512Hex (entries.get ⟨i, hi⟩).2)) := by
  refine ⟨add_users_spec entries, buildConfigUsers_spec entries, ?_, ?_⟩
  · intro p hp
    rw [add_users_spec] at hp
    rw [List.mem_map] at hp
    obtain ⟨q, hq, rfl⟩ := hp
    exact ⟨sha512Hex_length q.2, fun c hc => mem_hexOfBytes_isLowerHex _ c hc⟩
  · intro i j hi hj hpw
    rw [add_users_spec]
    constructor
    · rw [List.get?_map, List.get?_eq_get hi]
      rfl
    · rw [hpw, List.get?_map, List.get?_eq_get hj]
      rfl

/-- Witness for C9: one collected credential; the stored record is the
username with the digest, and the digest has the fixed length. -/
theorem c9_witness :
    add_users [("u", "p")] = [("u", sha512Hex "p")] ∧ (sha512Hex "p").length = 128 := by
  have h := c9_credentials_store_only_digests [("u", "p")]
  have hmem : ("u", sha512Hex "p") ∈ add_users [("u", "p")] := by rw [h.1]; simp
  exact ⟨h.1, (h.2.2.1 ("u", sha512Hex "p") hmem).1⟩

/-! ## Claim C10 -/

/-- Claim C10 (confirmed): without the `-s` flag, the spawned miniserve
command line is exactly the base invocation — no `-a` authentication
arguments whatsoever — and it is identical for any two stored credential
lists: the stored credentials have no observable effect on the non-secure
spawn. -/
theorem c10_nonsecure_ignores_credentials (cfg : Config)
    (us1 us2 : List (String × String)) (dir : String) :
    miniserveCommand false { cfg with users := us1 } dir =
      miniserveCommand false { cfg with users := us2 } dir ∧
    (miniserveCommand false cfg dir).args =
      ["-H", "-i", "127.0.0.1", "-p", toString cfg.local_port, dir] := by
  exact ⟨rfl, rfl⟩
